import Mathlib

set_option maxHeartbeats 1000000

/-!
Shallow embedding of the edit-session contribution
(`editSessions.contribution.ts`) and of the terminal service
(`terminalService.ts`).

URIs are modelled by their string (`toString()`) form; platform helpers
that live outside this source slice (base64 encoding, sha1 hashing,
`decodeEditSessionFileContent`) are fields of the environment record, so
all theorems hold for every implementation of them.
-/

/-- A URI, modelled by its string form. -/
abbrev Uri := String

/-- A file-system node: whether a stat reports a file, and the byte contents. -/
structure FileNode where
  isFile : Bool
  contents : String
deriving DecidableEq, Repr

/-- The file service state: an association list from URI to file node. -/
abbrev FileSystem := List (Uri × FileNode)

/-- Look a URI up in the file system. -/
def fsLookup : FileSystem → Uri → Option FileNode
  | [], _ => none
  | (k, v) :: rest, u => if k = u then some v else fsLookup rest u

/-- fileService.exists. -/
def fsExists (fs : FileSystem) (u : Uri) : Bool :=
  (fsLookup fs u).isSome

/-- fileService.stat(...).isFile; `none` models stat throwing on a missing path. -/
def fsStat (fs : FileSystem) (u : Uri) : Option Bool :=
  (fsLookup fs u).map (·.isFile)

/-- fileService.readFile; reading a missing file raises a file operation error. -/
def fsReadFile (fs : FileSystem) (u : Uri) : Except String String :=
  match fsLookup fs u with
  | some n => .ok n.contents
  | none => .error "FileNotFound"

/-- fileService.writeFile: replace the contents of an existing node, or create one. -/
def fsWriteFile : FileSystem → Uri → String → FileSystem
  | [], u, c => [(u, ⟨true, c⟩)]
  | (k, v) :: rest, u, c =>
    if k = u then (k, ⟨true, c⟩) :: rest else (k, v) :: fsWriteFile rest u c

/-- fileService.del. -/
def fsDel (fs : FileSystem) (u : Uri) : FileSystem :=
  fs.filter (fun p => p.1 != u)

/-- ChangeType enum of the common editSessions module (Addition = 1,
    Deletion = 2), kept as a number because edit sessions are deserialized
    from cloud data and may carry any numeric tag. -/
abbrev ChangeType := Nat

/-- ChangeType.Addition. -/
def ChangeType.Addition : ChangeType := 1

/-- ChangeType.Deletion. -/
def ChangeType.Deletion : ChangeType := 2

/-- FileType.File. -/
def FileType.File : Nat := 1

/-- A working change recorded in a stored edit session. -/
structure Change where
  type : ChangeType
  fileType : Nat
  contents : Option String
  relativeFilePath : String
deriving DecidableEq, Repr

/-- A folder of an edit session. -/
structure Folder where
  workingChanges : List Change
  name : String
  canonicalIdentity : Option String
deriving DecidableEq, Repr

/-- A stored edit session. -/
structure EditSession where
  folders : List Folder
  version : Nat
deriving DecidableEq, Repr

/-- Modelled from the spec: the `EditSessionSchemaVersion` constant of the
    common editSessions module (not part of this slice); sessions are stored
    with version 2, the current schema version. -/
def EditSessionSchemaVersion : Nat := 2

/-- A workspace folder of the workspace context service. -/
structure WorkspaceFolder where
  uri : Uri
  name : String
deriving DecidableEq, Repr

/-- An SCM resource group, reduced to the sourceUris of its elements. -/
structure SCMResourceGroup where
  elements : List Uri
deriving DecidableEq, Repr

/-- An SCM repository: its provider's rootUri and resource groups. -/
structure SCMRepository where
  rootUri : Option Uri
  groups : List SCMResourceGroup
deriving DecidableEq, Repr

/-- Adding to a JS Set: keeps insertion order, drops duplicates. -/
def insertUnique (l : List Uri) (u : Uri) : List Uri :=
  if u ∈ l then l else l ++ [u]

/-- getChangedResources: the set of sourceUris over all resource groups of a
    repository, deduplicated in insertion order. -/
def getChangedResources (r : SCMRepository) : List Uri :=
  r.groups.foldl (fun acc g => g.elements.foldl insertUnique acc) []

/-- resources relativePath on string uris: the path of `u` below `base`
    (character-list operations keep the definition kernel-reducible). -/
def relativePath (base : Uri) (u : Uri) : Option String :=
  if u = base then some ""
  else if List.isPrefixOf (base.data ++ ['/']) u.data then
    some (String.mk (u.data.drop (base.data.length + 1)))
  else none

/-- resources joinPath on string uris. -/
def joinPath (base : Uri) (rel : String) : Uri :=
  base ++ "/" ++ rel

/-- EditSessionIdentityMatch enum. -/
inductive EditSessionIdentityMatch where
  | Complete
  | Partial
  | NoMatch
deriving DecidableEq, Repr

/-- WorkbenchState enum. -/
inductive WorkbenchState where
  | EMPTY
  | FOLDER
  | WORKSPACE
deriving DecidableEq, Repr

/-- The injected services that an edit-session operation consults.
    Service calls whose implementation lives outside this slice are fields. -/
structure EditSessionsEnv where
  repositories : List SCMRepository
  workspaceFolders : List WorkspaceFolder
  getWorkspaceFolder : Uri → Option WorkspaceFolder
  getEditSessionIdentifier : WorkspaceFolder → Option String
  provideEditSessionIdentityMatch : WorkspaceFolder → String → String → Option EditSessionIdentityMatch
  allowPartialMatches : Bool
  encodeBase64 : String → String
  sha1Hex : Option String → String
  decodeEditSessionFileContent : Nat → String → String
  workbenchState : WorkbenchState
  readCloud : Option String → Option (String × EditSession)
  initializeResult : Bool
  confirmResult : Bool

/-- One step of the trackedUris loop of storeEditSession: accumulates the
    workingChanges, the folder name, and the hasEdits flag. A URI with no
    associated workspace folder is skipped; a stat reporting a non-file is
    skipped; an existing file yields an Addition with base64 contents; a
    missing path (stat throws, exists is false) yields a Deletion. -/
def storeChangeStep (env : EditSessionsEnv) (fs : FileSystem)
    (acc : List Change × Option String × Bool) (uri : Uri) :
    List Change × Option String × Bool :=
  let (wcs, name, hasEdits) := acc
  match env.getWorkspaceFolder uri with
  | none => (wcs, name, hasEdits)
  | some workspaceFolder =>
    let name' := match name with | some n => some n | none => some workspaceFolder.name
    let relativeFilePath := (relativePath workspaceFolder.uri uri).getD uri
    match fsLookup fs uri with
    | some node =>
      if node.isFile then
        (wcs ++ [⟨ChangeType.Addition, FileType.File,
          some (env.encodeBase64 node.contents), relativeFilePath⟩], name', true)
      else
        (wcs, name', hasEdits)
    | none =>
      (wcs ++ [⟨ChangeType.Deletion, FileType.File, none, relativeFilePath⟩], name', true)

/-- The per-repository body of storeEditSession's main loop: builds the
    Folder pushed for the repository and whether it contributed edits. -/
def storeFolder (env : EditSessionsEnv) (fs : FileSystem)
    (repository : SCMRepository) : Folder × Bool :=
  let trackedUris := getChangedResources repository
  let workspaceFolder := repository.rootUri.bind env.getWorkspaceFolder
  let init : List Change × Option String × Bool := ([], workspaceFolder.map (·.name), false)
  let res := trackedUris.foldl (storeChangeStep env fs) init
  let canonicalIdentity := workspaceFolder.bind env.getEditSessionIdentifier
  (⟨res.1, res.2.1.getD "", canonicalIdentity⟩, res.2.2)

/-- storeEditSession: the EditSession handed to editSessionsStorageService
    write, or none when there are no edits to store. -/
def storeEditSession (env : EditSessionsEnv) (fs : FileSystem) : Option EditSession :=
  let results := env.repositories.map (storeFolder env fs)
  let folders := results.map (·.1)
  let hasEdits := results.any (·.2)
  if hasEdits then some ⟨folders, 2⟩ else none

/-- The per-URI entry C1 predicts for a changed resource: skipped without a
    workspace folder, skipped when it is a non-file, an Addition with the
    base64-encoded contents when the file exists, a Deletion otherwise. -/
def claimChangeFor (env : EditSessionsEnv) (fs : FileSystem) (uri : Uri) : Option Change :=
  match env.getWorkspaceFolder uri with
  | none => none
  | some workspaceFolder =>
    let relativeFilePath := (relativePath workspaceFolder.uri uri).getD uri
    match fsLookup fs uri with
    | some node =>
      if node.isFile then
        some ⟨ChangeType.Addition, FileType.File,
          some (env.encodeBase64 node.contents), relativeFilePath⟩
      else none
    | none => some ⟨ChangeType.Deletion, FileType.File, none, relativeFilePath⟩

/-- The working changes C1 predicts for one repository: exactly one entry per
    deduplicated changed resource URI, as given by `claimChangeFor`. -/
def claimWorkingChanges (env : EditSessionsEnv) (fs : FileSystem)
    (repository : SCMRepository) : List Change :=
  (getChangedResources repository).filterMap (claimChangeFor env fs)

/-- willChangeLocalContents: an incoming change conflicts only when its URI is
    among the locally changed resources; an Addition conflicts when the sha1 of
    the stored contents differs from the sha1 of the base64-encoded current
    local contents, a Deletion when the local file exists; any other change
    type raises an error. -/
def willChangeLocalContents (env : EditSessionsEnv) (fs : FileSystem)
    (localChanges : List Uri) (uriWithIncomingChanges : Uri) (incomingChange : Change) :
    Except String Bool :=
  if uriWithIncomingChanges ∈ localChanges then
    if incomingChange.type = ChangeType.Addition then
      match fsReadFile fs uriWithIncomingChanges with
      | .error e => .error e
      | .ok localContents =>
        .ok (env.sha1Hex incomingChange.contents !=
          env.sha1Hex (some (env.encodeBase64 localContents)))
    else if incomingChange.type = ChangeType.Deletion then
      .ok (fsExists fs uriWithIncomingChanges)
    else
      .error "Unhandled change type."
  else
    .ok false

/-- The canonicalIdentity matching loop of generateChanges over the workspace
    folders: break on an equal identity, on a Complete match, or on a Partial
    match when partial matches are enabled and force is set (without force the
    Partial case only surfaces a prompt and the loop continues). -/
def findFolderRootByIdentity (env : EditSessionsEnv) (force : Bool) (ci : String) :
    List WorkspaceFolder → Option WorkspaceFolder
  | [] => none
  | f :: rest =>
    match env.getEditSessionIdentifier f with
    | some identity =>
      if identity = ci then some f
      else
        match env.provideEditSessionIdentityMatch f identity ci with
        | some EditSessionIdentityMatch.Complete => some f
        | some EditSessionIdentityMatch.Partial =>
          if env.allowPartialMatches ∧ force then some f
          else findFolderRootByIdentity env force ci rest
        | _ => findFolderRootByIdentity env force ci rest
    | none => findFolderRootByIdentity env force ci rest

/-- The folderRoot computation of generateChanges for one session folder: a
    truthy canonicalIdentity is matched through the identity services, an
    absent (or empty, hence falsy) one by equal folder name. -/
def matchFolderRoot (env : EditSessionsEnv) (force : Bool) (folder : Folder) :
    Option WorkspaceFolder :=
  if folder.canonicalIdentity.getD "" ≠ "" then
    findFolderRootByIdentity env force (folder.canonicalIdentity.getD "") env.workspaceFolders
  else
    env.workspaceFolders.find? (fun f => f.name = folder.name)

/-- The predicate C3 states for identity matching of one workspace folder. -/
def identityMatches (env : EditSessionsEnv) (force : Bool) (ci : String)
    (f : WorkspaceFolder) : Bool :=
  match env.getEditSessionIdentifier f with
  | some identity =>
    identity = ci ∨
      env.provideEditSessionIdentityMatch f identity ci = some EditSessionIdentityMatch.Complete ∨
      (env.provideEditSessionIdentityMatch f identity ci = some EditSessionIdentityMatch.Partial ∧
        env.allowPartialMatches ∧ force)
  | none => false

/-- The localChanges set generateChanges builds for a session folder: the
    changed resources of every repository whose root's workspace folder has
    the folder's name. -/
def localChangesFor (env : EditSessionsEnv) (folder : Folder) : List Uri :=
  env.repositories.foldl
    (fun acc repository =>
      match repository.rootUri with
      | some rootUri =>
        if (env.getWorkspaceFolder rootUri).map (·.name) = some folder.name then
          (getChangedResources repository).foldl insertUnique acc
        else acc
      | none => acc)
    []

/-- An entry of the changes list generateChanges returns. -/
structure ChangeEntry where
  uri : Uri
  type : ChangeType
  contents : Option String
deriving DecidableEq, Repr

/-- The inner loop of generateChanges over one folder's workingChanges:
    every change is pushed onto the changes, and onto the conflictingChanges
    when willChangeLocalContents reports a conflict. -/
def folderChangesGo (env : EditSessionsEnv) (fs : FileSystem)
    (folderRoot : WorkspaceFolder) (localChanges : List Uri) :
    List Change → List ChangeEntry → List ChangeEntry →
    Except String (List ChangeEntry × List ChangeEntry)
  | [], changes, conflictingChanges => .ok (changes, conflictingChanges)
  | change :: rest, changes, conflictingChanges =>
    let uri := joinPath folderRoot.uri change.relativeFilePath
    let changes' := changes ++ [⟨uri, change.type, change.contents⟩]
    match willChangeLocalContents env fs localChanges uri change with
    | .error e => .error e
    | .ok true =>
      folderChangesGo env fs folderRoot localChanges rest changes'
        (conflictingChanges ++ [⟨uri, change.type, change.contents⟩])
    | .ok false =>
      folderChangesGo env fs folderRoot localChanges rest changes' conflictingChanges

/-- The outer loop of generateChanges over the session folders: a folder
    with no matching workspace folder makes the whole function return empty
    changes and conflictingChanges. -/
def generateChangesGo (env : EditSessionsEnv) (fs : FileSystem) (force : Bool) :
    List Folder → List ChangeEntry → List ChangeEntry →
    Except String (List ChangeEntry × List ChangeEntry)
  | [], changes, conflictingChanges => .ok (changes, conflictingChanges)
  | folder :: rest, changes, conflictingChanges =>
    match matchFolderRoot env force folder with
    | none => .ok ([], [])
    | some folderRoot =>
      let localChanges := localChangesFor env folder
      match folderChangesGo env fs folderRoot localChanges folder.workingChanges
          changes conflictingChanges with
      | .error e => .error e
      | .ok (changes', conflictingChanges') =>
        generateChangesGo env fs force rest changes' conflictingChanges'

/-- generateChanges. -/
def generateChanges (env : EditSessionsEnv) (fs : FileSystem)
    (editSession : EditSession) (force : Bool) :
    Except String (List ChangeEntry × List ChangeEntry) :=
  generateChangesGo env fs force editSession.folders [] []

/-- The application loop of resumeEditSession: an Addition writes the decoded
    contents, a Deletion deletes the target when it currently exists; the file
    system is threaded through, and the writes and deletes are recorded in
    order. -/
def applyChanges (env : EditSessionsEnv) (version : Nat) :
    FileSystem → List ChangeEntry → FileSystem × List (Uri × String) × List Uri
  | fs, [] => (fs, [], [])
  | fs, c :: rest =>
    if c.type = ChangeType.Addition then
      let contents := env.decodeEditSessionFileContent version (c.contents.getD "")
      let r := applyChanges env version (fsWriteFile fs c.uri contents) rest
      (r.1, (c.uri, contents) :: r.2.1, r.2.2)
    else if c.type = ChangeType.Deletion ∧ fsExists fs c.uri then
      let r := applyChanges env version (fsDel fs c.uri) rest
      (r.1, r.2.1, c.uri :: r.2.2)
    else
      applyChanges env version fs rest

/-- The observable outcome of a resumeEditSession call. -/
structure ResumeResult where
  fs : FileSystem
  writes : List (Uri × String)
  deletes : List Uri
  cloudDeleted : Option String
  errorNotified : Bool
  didReadCloud : Bool
deriving DecidableEq, Repr

/-- resumeEditSession: early return on an empty workspace, on a failed silent
    initialization, on missing cloud content, on a too-new schema version
    (with an error notification), on empty changes, and on an unconfirmed
    conflict dialog; otherwise the changes are applied and the session is
    deleted from cloud storage. A thrown exception is caught and notified. -/
def resumeEditSession (env : EditSessionsEnv) (fs : FileSystem) (ref : Option String)
    (silent : Bool) (force : Bool) : ResumeResult :=
  if env.workbenchState = WorkbenchState.EMPTY then
    ⟨fs, [], [], none, false, false⟩
  else if silent ∧ ¬env.initializeResult then
    ⟨fs, [], [], none, false, false⟩
  else
    match env.readCloud ref with
    | none => ⟨fs, [], [], none, false, true⟩
    | some (ref', editSession) =>
      if editSession.version > EditSessionSchemaVersion then
        ⟨fs, [], [], none, true, true⟩
      else
        match generateChanges env fs editSession force with
        | .error _ => ⟨fs, [], [], none, true, true⟩
        | .ok (changes, conflictingChanges) =>
          if changes = [] then ⟨fs, [], [], none, false, true⟩
          else if conflictingChanges ≠ [] ∧ ¬env.confirmResult then
            ⟨fs, [], [], none, false, true⟩
          else
            let r := applyChanges env editSession.version fs changes
            ⟨r.1, r.2.1, r.2.2, some ref', false, true⟩

/-- The writes C2 predicts: one per Addition change, carrying the decoded
    session file contents. -/
def additionWrites (env : EditSessionsEnv) (version : Nat)
    (changes : List ChangeEntry) : List (Uri × String) :=
  changes.filterMap fun c =>
    if c.type = ChangeType.Addition then
      some (c.uri, env.decodeEditSessionFileContent version (c.contents.getD ""))
    else none

/-- The deletions C2 predicts against the initial file system: one per
    Deletion change whose target exists. -/
def deletionTargets (fs : FileSystem) (changes : List ChangeEntry) : List Uri :=
  changes.filterMap fun c =>
    if c.type = ChangeType.Deletion ∧ fsExists fs c.uri then some c.uri else none

/-- A concrete environment exercising storeEditSession: one repository, one
    tracked modified file and one tracked deleted file. -/
def envC1 : EditSessionsEnv where
  repositories := [⟨some "file:///root", [⟨["file:///root/a.txt", "file:///root/gone.txt"]⟩]⟩]
  workspaceFolders := [⟨"file:///root", "r"⟩]
  getWorkspaceFolder := fun u =>
    if u = "file:///root" ∨ u = "file:///root/a.txt" ∨ u = "file:///root/gone.txt" then
      some ⟨"file:///root", "r"⟩
    else none
  getEditSessionIdentifier := fun _ => some "identity"
  provideEditSessionIdentityMatch := fun _ _ _ => none
  allowPartialMatches := false
  encodeBase64 := fun s => "b64:" ++ s
  sha1Hex := fun o => "sha:" ++ o.getD "?"
  decodeEditSessionFileContent := fun _ c => "dec:" ++ c
  workbenchState := WorkbenchState.FOLDER
  readCloud := fun _ => none
  initializeResult := true
  confirmResult := true

/-- The file system used by the concrete edit-session examples. -/
def fsC1 : FileSystem := [("file:///root/a.txt", ⟨true, "hello"⟩)]

/-- A stored session used by the concrete resume examples: one folder matched
    by name, with a single Addition for a.txt. -/
def editSessionC2 : EditSession :=
  ⟨[⟨[⟨ChangeType.Addition, FileType.File, some "newc", "a.txt"⟩], "r", none⟩], 2⟩

/-- The changes generateChanges produces for `editSessionC2` over `fsC1`. -/
def changesC2 : List ChangeEntry :=
  [⟨"file:///root/a.txt", ChangeType.Addition, some "newc"⟩]

/-- The conflicting changes generateChanges produces for `editSessionC2`. -/
def conflictsC2 : List ChangeEntry :=
  [⟨"file:///root/a.txt", ChangeType.Addition, some "newc"⟩]

/-- An environment whose cloud storage holds `editSessionC2`. -/
def envC2 : EditSessionsEnv :=
  { envC1 with readCloud := fun _ => some ("ref1", editSessionC2) }

/-- An environment whose cloud storage holds a session with a too-new version. -/
def envC8 : EditSessionsEnv :=
  { envC1 with readCloud := fun _ => some ("ref8", ⟨[], 3⟩) }

/-- An environment whose workbench state is an empty workspace. -/
def envC9 : EditSessionsEnv :=
  { envC1 with workbenchState := WorkbenchState.EMPTY }

/-- TerminalConnectionState enum. -/
inductive TerminalConnectionState where
  | Connecting
  | Connected
deriving DecidableEq, Repr

/-- TerminalLocation enum. -/
inductive TerminalLocation where
  | Panel
  | Editor
deriving DecidableEq, Repr

/-- Reconnection properties of a terminal instance. -/
structure ReconnectionProperties where
  ownerId : String
deriving DecidableEq, Repr

/-- A shell launch config, reduced to the fields this service reads. -/
structure ShellLaunchConfig where
  customPtyImplementation : Bool
  hideFromUser : Bool
  cwd : Option String
deriving DecidableEq, Repr

/-- A terminal instance, reduced to the fields this service reads. -/
structure TerminalInstance where
  instanceId : Nat
  reconnectionProperties : Option ReconnectionProperties
  shellLaunchConfig : ShellLaunchConfig
  target : Option TerminalLocation
deriving DecidableEq, Repr

/-- A terminal backend. -/
structure TerminalBackend where
  remoteAuthority : Option String
deriving DecidableEq, Repr

/-- Which reconnection routine handleNewRegisteredBackend awaits before
    _setConnected runs: remote terminals, local terminals, or an immediately
    resolved promise. -/
inductive ReconnectKind where
  | remote
  | localTerminals
  | immediate
deriving DecidableEq, Repr

/-- The connection bookkeeping of the terminal service. -/
structure TerminalConnState where
  connectionState : TerminalConnectionState
  primaryBackend : Option TerminalBackend
  connectionStateEvents : Nat
deriving DecidableEq, Repr

/-- The environment read by handleNewRegisteredBackend. -/
structure TerminalConnEnv where
  remoteAuthority : Option String
  enablePersistentSessions : Bool
deriving DecidableEq, Repr

/-- _setConnected: set the connection state to Connected and fire
    onDidChangeConnectionState (modelled as an event counter). -/
def _setConnected (st : TerminalConnState) : TerminalConnState :=
  { st with connectionState := TerminalConnectionState.Connected,
            connectionStateEvents := st.connectionStateEvents + 1 }

/-- handleNewRegisteredBackend: for the backend matching the environment's
    remote authority, record it as primary, set the connection state to
    Connecting, and schedule _setConnected behind the appropriate
    reconnection routine (the returned kind); completion of that promise is
    modelled by applying _setConnected to the resulting state. -/
def handleNewRegisteredBackend (env : TerminalConnEnv) (st : TerminalConnState)
    (backend : TerminalBackend) : TerminalConnState × Option ReconnectKind :=
  if backend.remoteAuthority = env.remoteAuthority then
    let enableTerminalReconnection := env.enablePersistentSessions
    let st' := { st with primaryBackend := some backend,
                         connectionState := TerminalConnectionState.Connecting }
    let isPersistentRemote := env.remoteAuthority.getD "" ≠ "" ∧ enableTerminalReconnection
    if isPersistentRemote then (st', some ReconnectKind.remote)
    else if enableTerminalReconnection then (st', some ReconnectKind.localTerminals)
    else (st', some ReconnectKind.immediate)
  else (st, none)

/-- The reconnected-terminals map: a JS Map in insertion order. -/
abbrev ReconnectedMap := List (String × List TerminalInstance)

/-- Map.get. -/
def mapGet : ReconnectedMap → String → Option (List TerminalInstance)
  | [], _ => none
  | (k, l) :: rest, owner => if k = owner then some l else mapGet rest owner

/-- Push onto the list stored for an owner, or set a fresh singleton entry. -/
def addToOwner : ReconnectedMap → String → TerminalInstance → ReconnectedMap
  | [], owner, inst => [(owner, [inst])]
  | (k, l) :: rest, owner, inst =>
    if k = owner then (k, l ++ [inst]) :: rest else (k, l) :: addToOwner rest owner inst

/-- _addToReconnected: record an instance under its reconnection owner; an
    instance without reconnectionProperties is not recorded. -/
def _addToReconnected (m : ReconnectedMap) (inst : TerminalInstance) : ReconnectedMap :=
  match inst.reconnectionProperties with
  | some props => addToOwner m props.ownerId inst
  | none => m

/-- The state of the terminal service touched by terminal creation. -/
structure TerminalServiceState where
  groupInstances : List TerminalInstance
  editorInstances : List TerminalInstance
  backgroundedTerminalInstances : List TerminalInstance
  reconnectedTerminals : ReconnectedMap
deriving DecidableEq, Repr

/-- The instances getter: the terminal group service's instances concatenated
    with the terminal editor service's instances. -/
def instances (st : TerminalServiceState) : List TerminalInstance :=
  st.groupInstances ++ st.editorInstances

/-- getReconnectedTerminals. -/
def getReconnectedTerminals (st : TerminalServiceState) (reconnectionOwner : String) :
    Option (List TerminalInstance) :=
  mapGet st.reconnectedTerminals reconnectionOwner

/-- A terminal profile or shell launch config passed as options.config; an
    extension profile carries an extensionIdentifier. -/
inductive TerminalConfig where
  | launch (slc : ShellLaunchConfig)
  | profile (profileName : String)
  | extensionProfile (extensionIdentifier : String) (id : String)
deriving DecidableEq, Repr

/-- ITerminalLocationOptions. -/
inductive TerminalLocationOptions where
  | loc (l : TerminalLocation)
  | viewColumn (column : Nat)
  | parentTerminal (parent : TerminalInstance)
  | splitActiveTerminal (b : Bool)
deriving DecidableEq, Repr

/-- ICreateTerminalOptions. -/
structure CreateTerminalOptions where
  config : Option TerminalConfig
  cwd : Option String
  location : Option TerminalLocationOptions
deriving DecidableEq, Repr

/-- The injected services createTerminal consults; instance-producing service
    calls are environment functions, and activeInstance stands for the
    service's active-instance lookup. -/
structure TerminalCreateEnv where
  getDefaultProfile : Option TerminalConfig
  convertProfileToShellLaunchConfig : Option TerminalConfig → ShellLaunchConfig
  getContributedDefaultProfile : ShellLaunchConfig → Option (String × String)
  contributedInstances : List TerminalInstance
  isProcessSupportRegistered : Bool
  activeInstance : Option TerminalInstance
  defaultLocation : TerminalLocation
  getCwdForSplit : TerminalInstance → Option String
  createInstance : ShellLaunchConfig → TerminalLocation → TerminalInstance
  createGroupInstance : ShellLaunchConfig → TerminalInstance
  splitInstanceResult : TerminalInstance → ShellLaunchConfig → TerminalInstance
  groupSplitResult : TerminalInstance → ShellLaunchConfig → TerminalInstance
  parentHasGroup : TerminalInstance → Bool

/-- The shell launch config createTerminal derives from its config: an
    extension profile yields an empty config, anything else goes through
    convertProfileToShellLaunchConfig. -/
def shellLaunchConfigOf (env : TerminalCreateEnv)
    (options : Option CreateTerminalOptions) : ShellLaunchConfig :=
  let config := match options.bind CreateTerminalOptions.config with
    | some c => some c
    | none => env.getDefaultProfile
  match config with
  | some (TerminalConfig.extensionProfile _ _) => ⟨false, false, none⟩
  | c => env.convertProfileToShellLaunchConfig c

/-- The contributed profile createTerminal launches: an extension profile
    given as (or defaulted into) the config, or the contributed default
    profile when no config was passed in the options. -/
def contributedProfileOf (env : TerminalCreateEnv)
    (options : Option CreateTerminalOptions) (shellLaunchConfig : ShellLaunchConfig) :
    Option (String × String) :=
  let config := match options.bind CreateTerminalOptions.config with
    | some c => some c
    | none => env.getDefaultProfile
  match config with
  | some (TerminalConfig.extensionProfile e i) => some (e, i)
  | _ =>
    if (options.bind CreateTerminalOptions.config).isNone then
      env.getContributedDefaultProfile shellLaunchConfig
    else none

/-- The splitActiveTerminal flag computed at the top of createTerminal. -/
def splitActiveTerminalFlag : Option TerminalLocationOptions → Bool
  | some (TerminalLocationOptions.splitActiveTerminal b) => b
  | some (TerminalLocationOptions.parentTerminal _) => true
  | _ => false

/-- resolveLocation. -/
def resolveLocation (env : TerminalCreateEnv) :
    Option TerminalLocationOptions → Option TerminalLocation
  | some (TerminalLocationOptions.parentTerminal p) =>
    some (match p.target with | none => TerminalLocation.Panel | some t => t)
  | some (TerminalLocationOptions.viewColumn _) => some TerminalLocation.Editor
  | some (TerminalLocationOptions.splitActiveTerminal _) =>
    some (match env.activeInstance.bind TerminalInstance.target with
      | none => TerminalLocation.Panel
      | some t => t)
  | some (TerminalLocationOptions.loc l) => some l
  | none => none

/-- _getSplitParent. -/
def _getSplitParent (env : TerminalCreateEnv) :
    Option TerminalLocationOptions → Option TerminalInstance
  | some (TerminalLocationOptions.parentTerminal p) => some p
  | some (TerminalLocationOptions.splitActiveTerminal _) => env.activeInstance
  | _ => none

/-- _resolveCwd: fill in the launch config cwd (a falsy cwd counts as
    absent); splitting with neither an explicit parent nor an active
    instance throws. -/
def _resolveCwd (env : TerminalCreateEnv) (shellLaunchConfig : ShellLaunchConfig)
    (splitActiveTerminal : Bool) (options : Option CreateTerminalOptions) :
    Except String ShellLaunchConfig :=
  if shellLaunchConfig.cwd.getD "" ≠ "" then .ok shellLaunchConfig
  else if (options.bind CreateTerminalOptions.cwd).getD "" ≠ "" then
    .ok { shellLaunchConfig with cwd := options.bind CreateTerminalOptions.cwd }
  else if splitActiveTerminal ∧ (options.bind CreateTerminalOptions.location).isSome then
    let parent := match options.bind CreateTerminalOptions.location with
      | some (TerminalLocationOptions.parentTerminal p) => some p
      | _ => env.activeInstance
    match parent with
    | none => .error "Cannot split without an active instance"
    | some p => .ok { shellLaunchConfig with cwd := env.getCwdForSplit p }
  else .ok shellLaunchConfig

/-- Record an instance in the reconnected map of a state. -/
def addReconnected (st : TerminalServiceState) (inst : TerminalInstance) :
    TerminalServiceState :=
  { st with reconnectedTerminals := _addToReconnected st.reconnectedTerminals inst }

/-- _splitTerminal: split in the editor service when targeting the editor,
    otherwise split the parent's group (an ungrouped parent throws); the new
    instance is recorded in the reconnected-terminals map. The cwd scheme
    munging of the source is elided since cwd is modelled as a plain string. -/
def _splitTerminal (env : TerminalCreateEnv) (st : TerminalServiceState)
    (shellLaunchConfig : ShellLaunchConfig) (location : TerminalLocation)
    (parent : TerminalInstance) : Except String (TerminalInstance × TerminalServiceState) :=
  if location = TerminalLocation.Editor ∨ parent.target = some TerminalLocation.Editor then
    let inst := env.splitInstanceResult parent shellLaunchConfig
    .ok (inst, addReconnected { st with editorInstances := st.editorInstances ++ [inst] } inst)
  else if env.parentHasGroup parent then
    let inst := env.groupSplitResult parent shellLaunchConfig
    .ok (inst, addReconnected { st with groupInstances := st.groupInstances ++ [inst] } inst)
  else
    .error "Cannot split a terminal without a group"

/-- _createTerminal: create an editor instance and open it, or create a new
    group whose first instance is returned; the instance is recorded in the
    reconnected-terminals map. -/
def _createTerminal (env : TerminalCreateEnv) (st : TerminalServiceState)
    (shellLaunchConfig : ShellLaunchConfig) (location : TerminalLocation) :
    TerminalInstance × TerminalServiceState :=
  if location = TerminalLocation.Editor then
    let inst := env.createInstance shellLaunchConfig TerminalLocation.Editor
    (inst, addReconnected { st with editorInstances := st.editorInstances ++ [inst] } inst)
  else
    let inst := env.createGroupInstance shellLaunchConfig
    (inst, addReconnected { st with groupInstances := st.groupInstances ++ [inst] } inst)

/-- createTerminal (profile-readiness awaiting and focus calls have no state
    effect and are elided; a thrown error is the Except error; the access of
    a missing instance after a contributed launch is the TypeError it raises). -/
def createTerminal (env : TerminalCreateEnv) (st : TerminalServiceState)
    (options : Option CreateTerminalOptions) :
    Except String (TerminalInstance × TerminalServiceState) :=
  let shellLaunchConfig := shellLaunchConfigOf env options
  let contributedProfile := contributedProfileOf env options shellLaunchConfig
  let splitActiveTerminal := splitActiveTerminalFlag (options.bind CreateTerminalOptions.location)
  match _resolveCwd env shellLaunchConfig splitActiveTerminal options with
  | .error e => .error e
  | .ok slc =>
    match contributedProfile with
    | some _ =>
      let resolvedLocation := resolveLocation env (options.bind CreateTerminalOptions.location)
      let st' :=
        if resolvedLocation = some TerminalLocation.Editor then
          { st with editorInstances := st.editorInstances ++ env.contributedInstances }
        else
          { st with groupInstances := st.groupInstances ++ env.contributedInstances }
      let host :=
        if resolvedLocation = some TerminalLocation.Editor then st'.editorInstances
        else st'.groupInstances
      match host.getLast? with
      | none => .error "TypeError: instance is undefined"
      | some inst => .ok (inst, st')
    | none =>
      if ¬slc.customPtyImplementation ∧ ¬env.isProcessSupportRegistered then
        .error "Could not create terminal when process support is not registered"
      else if slc.hideFromUser then
        let inst := env.createInstance slc TerminalLocation.Panel
        .ok (inst, { st with backgroundedTerminalInstances :=
          st.backgroundedTerminalInstances ++ [inst] })
      else
        let location :=
          (resolveLocation env (options.bind CreateTerminalOptions.location)).getD
            env.defaultLocation
        match _getSplitParent env (options.bind CreateTerminalOptions.location) with
        | some parent => _splitTerminal env st slc location parent
        | none => .ok (_createTerminal env st slc location)

/-- JS Array.indexOf: the index of the first occurrence, or -1. -/
def jsIndexOf : List TerminalInstance → TerminalInstance → Int
  | [], _ => -1
  | a :: rest, inst =>
    if a = inst then 0
    else
      let r := jsIndexOf rest inst
      if r = -1 then -1 else r + 1

/-- JS Array.splice(i, 1) at an indexOf result: index -1 removes the last
    element. -/
def spliceAt (l : List TerminalInstance) (i : Int) : List TerminalInstance :=
  if i = -1 then l.dropLast else l.eraseIdx i.toNat

/-- splice(indexOf(inst), 1). -/
def spliceIndexOf (l : List TerminalInstance) (inst : TerminalInstance) :
    List TerminalInstance :=
  spliceAt l (jsIndexOf l inst)

/-- _showBackgroundTerminal: remove the instance from the backgrounded list,
    clear its hideFromUser flag, and add it to a new terminal group. -/
def _showBackgroundTerminal (st : TerminalServiceState) (inst : TerminalInstance) :
    TerminalServiceState :=
  let shown := { inst with
    shellLaunchConfig := { inst.shellLaunchConfig with hideFromUser := false } }
  { st with
    backgroundedTerminalInstances := spliceIndexOf st.backgroundedTerminalInstances inst,
    groupInstances := st.groupInstances ++ [shown] }

/-- Concrete shell launch config used by the terminal examples. -/
def slcT : ShellLaunchConfig := ⟨false, false, none⟩

/-- A concrete terminal instance with reconnection owner "own". -/
def instT1 : TerminalInstance := ⟨1, some ⟨"own"⟩, slcT, none⟩

/-- A concrete terminal creation environment. -/
def envT : TerminalCreateEnv where
  getDefaultProfile := none
  convertProfileToShellLaunchConfig := fun c => match c with
    | some (TerminalConfig.launch slc) => slc
    | _ => ⟨false, false, none⟩
  getContributedDefaultProfile := fun _ => none
  contributedInstances := []
  isProcessSupportRegistered := true
  activeInstance := none
  defaultLocation := TerminalLocation.Panel
  getCwdForSplit := fun _ => none
  createInstance := fun slc _ => ⟨10, none, slc, none⟩
  createGroupInstance := fun slc => ⟨11, some ⟨"own"⟩, slc, none⟩
  splitInstanceResult := fun _ slc => ⟨12, none, slc, some TerminalLocation.Editor⟩
  groupSplitResult := fun _ slc => ⟨13, some ⟨"own"⟩, slc, none⟩
  parentHasGroup := fun _ => true

/-- The environment of the C10 counterexample: process support unregistered. -/
def envC10 : TerminalCreateEnv := { envT with isProcessSupportRegistered := false }

/-- The options of the C10 counterexample: a plain launch config and a
    split-active-terminal location while no instance is active. -/
def optsC10 : CreateTerminalOptions :=
  ⟨some (TerminalConfig.launch slcT), none,
    some (TerminalLocationOptions.splitActiveTerminal true)⟩

/-- The empty terminal service state. -/
def stT0 : TerminalServiceState := ⟨[], [], [], []⟩

/-- Options creating a background (hideFromUser) terminal. -/
def optsBG : CreateTerminalOptions :=
  ⟨some (TerminalConfig.launch ⟨false, true, some "cwd"⟩), none, none⟩

/-- A concrete connection environment: a remote authority with persistent
    sessions enabled. -/
def envConnT : TerminalConnEnv := ⟨some "auth", true⟩

/-- A concrete initial connection state. -/
def stConnT : TerminalConnState := ⟨TerminalConnectionState.Connecting, none, 0⟩

theorem storeChangeStep_foldl (env : EditSessionsEnv) (fs : FileSystem)
    (uris : List Uri) (wcs : List Change) (name : Option String) (hasEdits : Bool) :
    (uris.foldl (storeChangeStep env fs) (wcs, name, hasEdits)).1 =
      wcs ++ uris.filterMap (claimChangeFor env fs) := by
  induction uris generalizing wcs name hasEdits with
  | nil => simp
  | cons u rest ih =>
    rw [List.foldl_cons, List.filterMap_cons]
    cases h : env.getWorkspaceFolder u with
    | none =>
      have hs : storeChangeStep env fs (wcs, name, hasEdits) u = (wcs, name, hasEdits) := by
        simp [storeChangeStep, h]
      have hc : claimChangeFor env fs u = none := by
        simp [claimChangeFor, h]
      rw [hs]
      simp [hc, ih]
    | some wf =>
      cases hn : fsLookup fs u with
      | none =>
        have hs : storeChangeStep env fs (wcs, name, hasEdits) u =
            (wcs ++ [⟨ChangeType.Deletion, FileType.File, none, (relativePath wf.uri u).getD u⟩],
              (match name with | some n => some n | none => some wf.name), true) := by
          simp [storeChangeStep, h, hn]
        have hc : claimChangeFor env fs u =
            some ⟨ChangeType.Deletion, FileType.File, none, (relativePath wf.uri u).getD u⟩ := by
          simp [claimChangeFor, h, hn]
        rw [hs]
        simp [hc, ih]
      | some node =>
        by_cases hf : node.isFile
        · have hs : storeChangeStep env fs (wcs, name, hasEdits) u =
              (wcs ++ [⟨ChangeType.Addition, FileType.File,
                some (env.encodeBase64 node.contents), (relativePath wf.uri u).getD u⟩],
                (match name with | some n => some n | none => some wf.name), true) := by
            simp [storeChangeStep, h, hn, hf]
          have hc : claimChangeFor env fs u =
              some ⟨ChangeType.Addition, FileType.File,
                some (env.encodeBase64 node.contents), (relativePath wf.uri u).getD u⟩ := by
            simp [claimChangeFor, h, hn, hf]
          rw [hs]
          simp [hc, ih]
        · have hs : storeChangeStep env fs (wcs, name, hasEdits) u =
              (wcs, (match name with | some n => some n | none => some wf.name), hasEdits) := by
            simp [storeChangeStep, h, hn, hf]
          have hc : claimChangeFor env fs u = none := by
            simp [claimChangeFor, h, hn, hf]
          rw [hs]
          simp [hc, ih]

theorem storeFolder_workingChanges (env : EditSessionsEnv) (fs : FileSystem)
    (repository : SCMRepository) :
    (storeFolder env fs repository).1.workingChanges =
      claimWorkingChanges env fs repository := by
  unfold storeFolder claimWorkingChanges
  simpa using storeChangeStep_foldl env fs (getChangedResources repository) [] _ false

/-- C1: for every invocation of storeEditSession that stores a session, the
    stored EditSession has version 2 and contains one Folder per SCM
    repository whose workingChanges has exactly one entry per deduplicated
    changed resource URI that has an associated workspace folder and is not
    reported as a non-file: an Addition with the base64-encoded current
    contents when the file exists, a Deletion with no contents when it does
    not; changed URIs with no associated workspace folder are skipped. -/
theorem storeEditSession_C1 (env : EditSessionsEnv) (fs : FileSystem)
    (s : EditSession) (h : storeEditSession env fs = some s) :
    s.version = 2 ∧
    s.folders.map Folder.workingChanges =
      env.repositories.map (claimWorkingChanges env fs) := by
  unfold storeEditSession at h
  by_cases he : (env.repositories.map (storeFolder env fs)).any (·.2)
  · simp only [he, if_true] at h
    cases h
    refine ⟨rfl, ?_⟩
    simp only [List.map_map]
    exact List.map_congr_left (fun r _ => storeFolder_workingChanges env fs r)
  · simp [he] at h

theorem storeEditSession_C1_witness :
    (⟨[⟨[⟨ChangeType.Addition, FileType.File, some "b64:hello", "a.txt"⟩,
        ⟨ChangeType.Deletion, FileType.File, none, "gone.txt"⟩], "r", some "identity"⟩],
      2⟩ : EditSession).version = 2 ∧
    ([⟨[⟨ChangeType.Addition, FileType.File, some "b64:hello", "a.txt"⟩,
        ⟨ChangeType.Deletion, FileType.File, none, "gone.txt"⟩], "r", some "identity"⟩] :
      List Folder).map Folder.workingChanges =
      envC1.repositories.map (claimWorkingChanges envC1 fsC1) :=
  storeEditSession_C1 envC1 fsC1 _ (by decide)

theorem findFolderRootByIdentity_find (env : EditSessionsEnv) (force : Bool) (ci : String)
    (l : List WorkspaceFolder) :
    findFolderRootByIdentity env force ci l = l.find? (identityMatches env force ci) := by
  induction l with
  | nil => rfl
  | cons f rest ih =>
    cases h : env.getEditSessionIdentifier f with
    | none =>
      have hp : identityMatches env force ci f = false := by simp [identityMatches, h]
      simp [findFolderRootByIdentity, h, List.find?_cons, hp, ih]
    | some identity =>
      by_cases he : identity = ci
      · have hp : identityMatches env force ci f = true := by simp [identityMatches, h, he]
        simp [findFolderRootByIdentity, h, he, List.find?_cons, hp]
      · cases hpm : env.provideEditSessionIdentityMatch f identity ci with
        | none =>
          have hp : identityMatches env force ci f = false := by
            simp [identityMatches, h, he, hpm]
          simp [findFolderRootByIdentity, h, he, hpm, List.find?_cons, hp, ih]
        | some m =>
          cases m with
          | Complete =>
            have hp : identityMatches env force ci f = true := by
              simp [identityMatches, h, hpm]
            simp [findFolderRootByIdentity, h, he, hpm, List.find?_cons, hp]
          | Partial =>
            by_cases hpf : env.allowPartialMatches ∧ force
            · obtain ⟨hap, hfo⟩ := hpf
              subst hfo
              have hp : identityMatches env true ci f = true := by
                simp [identityMatches, h, hpm, hap]
              simp [findFolderRootByIdentity, h, he, hpm, hap, List.find?_cons, hp]
            · have hp : identityMatches env force ci f = false := by
                simp [identityMatches, h, he, hpm, hpf]
              simp [findFolderRootByIdentity, h, he, hpm, hpf, List.find?_cons, hp, ih]
          | NoMatch =>
            have hp : identityMatches env force ci f = false := by
              simp [identityMatches, h, he, hpm]
            simp [findFolderRootByIdentity, h, he, hpm, List.find?_cons, hp, ih]

theorem generateChangesGo_empty (env : EditSessionsEnv) (fs : FileSystem) (force : Bool)
    (folders : List Folder) :
    ∀ cs0 ccs0 cs ccs,
      generateChangesGo env fs force folders cs0 ccs0 = .ok (cs, ccs) →
      (∃ folder ∈ folders, matchFolderRoot env force folder = none) →
      cs = [] ∧ ccs = [] := by
  induction folders with
  | nil =>
    intro cs0 ccs0 cs ccs h hex
    simp at hex
  | cons folder rest ih =>
    intro cs0 ccs0 cs ccs h hex
    cases hm : matchFolderRoot env force folder with
    | none =>
      unfold generateChangesGo at h
      simp only [hm] at h
      simp only [Except.ok.injEq, Prod.mk.injEq] at h
      exact ⟨h.1.symm, h.2.symm⟩
    | some folderRoot =>
      unfold generateChangesGo at h
      simp only [hm] at h
      rcases hex with ⟨f, hf, hnone⟩
      rcases List.mem_cons.mp hf with rfl | hfr
      · rw [hm] at hnone
        cases hnone
      · cases hfc : folderChangesGo env fs folderRoot (localChangesFor env folder)
            folder.workingChanges cs0 ccs0 with
        | error e =>
          simp only [hfc] at h
          simp at h
        | ok p =>
          obtain ⟨cs1, ccs1⟩ := p
          simp only [hfc] at h
          exact ih cs1 ccs1 cs ccs h ⟨f, hfr, hnone⟩

/-- C3: a session folder with a canonicalIdentity is matched to the first
    workspace folder whose identity equals it, or whose identity match is
    Complete (Partial is accepted only with partial matches enabled and force
    set); a folder without a canonicalIdentity is matched by equal name; and
    when any session folder has no match, generateChanges returns empty
    changes and conflictingChanges. -/
theorem generateChanges_C3 (env : EditSessionsEnv) (fs : FileSystem) (force : Bool) :
    (∀ (folder : Folder) (ci : String), folder.canonicalIdentity = some ci → ci ≠ "" →
      matchFolderRoot env force folder =
        env.workspaceFolders.find? (identityMatches env force ci))
    ∧ (∀ folder : Folder, folder.canonicalIdentity.getD "" = "" →
      matchFolderRoot env force folder =
        env.workspaceFolders.find? (fun f => f.name = folder.name))
    ∧ (∀ (editSession : EditSession) (changes conflictingChanges : List ChangeEntry),
      generateChanges env fs editSession force = .ok (changes, conflictingChanges) →
      (∃ folder ∈ editSession.folders, matchFolderRoot env force folder = none) →
      changes = [] ∧ conflictingChanges = []) := by
  refine ⟨?_, ?_, ?_⟩
  · intro folder ci hci hne
    rw [matchFolderRoot, if_pos (by simp [hci, hne])]
    rw [hci]
    simpa using findFolderRootByIdentity_find env force ci env.workspaceFolders
  · intro folder hci
    rw [matchFolderRoot, if_neg (by simp [hci])]
  · intro editSession changes conflictingChanges h hex
    exact generateChangesGo_empty env fs force editSession.folders [] [] changes
      conflictingChanges h hex

theorem generateChanges_C3_witness :
    matchFolderRoot envC1 true ⟨[], "x", some "identity"⟩ =
      envC1.workspaceFolders.find? (identityMatches envC1 true "identity") :=
  (generateChanges_C3 envC1 fsC1 true).1 ⟨[], "x", some "identity"⟩ "identity" rfl
    (by decide)

/-- C4: willChangeLocalContents reports a conflict only for a URI among the
    locally changed resources, and there: for an Addition exactly when the
    sha1 of the stored contents differs from the sha1 of the base64-encoded
    current local contents, for a Deletion exactly when the local file
    exists; any other change type raises an error. -/
theorem willChangeLocalContents_C4 (env : EditSessionsEnv) (fs : FileSystem)
    (localChanges : List Uri) (uri : Uri) (change : Change) :
    (uri ∉ localChanges →
      willChangeLocalContents env fs localChanges uri change = .ok false)
    ∧ (uri ∈ localChanges → change.type = ChangeType.Addition →
      ∀ localContents, fsReadFile fs uri = .ok localContents →
      willChangeLocalContents env fs localChanges uri change =
        .ok (env.sha1Hex change.contents !=
          env.sha1Hex (some (env.encodeBase64 localContents))))
    ∧ (uri ∈ localChanges → change.type = ChangeType.Deletion →
      willChangeLocalContents env fs localChanges uri change = .ok (fsExists fs uri))
    ∧ (uri ∈ localChanges → change.type ≠ ChangeType.Addition →
      change.type ≠ ChangeType.Deletion →
      willChangeLocalContents env fs localChanges uri change =
        .error "Unhandled change type.") := by
  refine ⟨?_, ?_, ?_, ?_⟩
  · intro hmem
    simp [willChangeLocalContents, hmem]
  · intro hmem ht localContents hread
    simp [willChangeLocalContents, hmem, ht, hread]
  · intro hmem ht
    simp [willChangeLocalContents, hmem, ht, ChangeType.Addition, ChangeType.Deletion]
  · intro hmem h1 h2
    simp [willChangeLocalContents, hmem, h1, h2]

theorem willChangeLocalContents_C4_witness :
    willChangeLocalContents envC1 fsC1 ["file:///root/a.txt"] "file:///root/a.txt"
        ⟨ChangeType.Addition, FileType.File, some "c", "a.txt"⟩ =
      .ok (envC1.sha1Hex (some "c") !=
        envC1.sha1Hex (some (envC1.encodeBase64 "hello"))) :=
  (willChangeLocalContents_C4 envC1 fsC1 ["file:///root/a.txt"] "file:///root/a.txt"
    ⟨ChangeType.Addition, FileType.File, some "c", "a.txt"⟩).2.1
    (by decide) rfl "hello" rfl

theorem Deletion_ne_Addition : ChangeType.Deletion ≠ ChangeType.Addition := by decide

theorem fsLookup_fsWriteFile (fs : FileSystem) (u : Uri) (c : String) (v : Uri) :
    fsLookup (fsWriteFile fs u c) v =
      if u = v then some ⟨true, c⟩ else fsLookup fs v := by
  induction fs with
  | nil => simp [fsWriteFile, fsLookup]
  | cons p rest ih =>
    obtain ⟨k, w⟩ := p
    simp only [fsWriteFile]
    by_cases hk : k = u
    · rw [if_pos hk]
      simp only [fsLookup]
      by_cases hv : k = v
      · rw [if_pos hv, if_pos (hk.symm.trans hv)]
      · have huv : ¬u = v := fun h => hv (hk.trans h)
        rw [if_neg hv, if_neg huv, if_neg hv]
    · rw [if_neg hk]
      simp only [fsLookup]
      rw [ih]
      by_cases hv : k = v
      · have huv : ¬u = v := fun h => hk (hv.trans h.symm)
        rw [if_pos hv, if_neg huv, if_pos hv]
      · by_cases huv : u = v
        · rw [if_neg hv, if_pos huv, if_pos huv]
        · rw [if_neg hv, if_neg huv, if_neg huv, if_neg hv]

theorem fsExists_fsWriteFile (fs : FileSystem) (u : Uri) (c : String) (v : Uri) :
    fsExists (fsWriteFile fs u c) v = if u = v then true else fsExists fs v := by
  unfold fsExists
  rw [fsLookup_fsWriteFile]
  split_ifs <;> simp

theorem fsLookup_fsDel (fs : FileSystem) (u : Uri) (v : Uri) :
    fsLookup (fsDel fs u) v = if u = v then none else fsLookup fs v := by
  induction fs with
  | nil => simp [fsDel, fsLookup]
  | cons p rest ih =>
    obtain ⟨k, w⟩ := p
    have hcons : fsDel ((k, w) :: rest) u =
        if (k != u) = true then (k, w) :: fsDel rest u else fsDel rest u := by
      simp [fsDel, List.filter_cons]
    rw [hcons]
    by_cases hk : k = u
    · rw [if_neg (by simp [hk]), ih]
      by_cases hv : u = v
      · rw [if_pos hv, if_pos hv]
      · have hkv : ¬k = v := fun h => hv (hk.symm.trans h)
        rw [if_neg hv, if_neg hv]
        simp only [fsLookup]
        rw [if_neg hkv]
    · rw [if_pos (by simp [hk])]
      simp only [fsLookup]
      rw [ih]
      by_cases hv : k = v
      · have huv : ¬u = v := fun h => hk (hv.trans h.symm)
        rw [if_pos hv, if_neg huv, if_pos hv]
      · by_cases huv : u = v
        · rw [if_neg hv, if_pos huv, if_pos huv]
        · rw [if_neg hv, if_neg huv, if_neg huv, if_neg hv]

theorem fsExists_fsDel (fs : FileSystem) (u : Uri) (v : Uri) :
    fsExists (fsDel fs u) v = if u = v then false else fsExists fs v := by
  unfold fsExists
  rw [fsLookup_fsDel]
  split_ifs <;> simp

theorem applyChanges_writes (env : EditSessionsEnv) (version : Nat)
    (changes : List ChangeEntry) :
    ∀ fs : FileSystem,
      (applyChanges env version fs changes).2.1 = additionWrites env version changes := by
  induction changes with
  | nil => intro fs; rfl
  | cons c rest ih =>
    intro fs
    by_cases h1 : c.type = ChangeType.Addition
    · simp [applyChanges, additionWrites, List.filterMap_cons, h1, ih]
    · by_cases h2 : c.type = ChangeType.Deletion ∧ fsExists fs c.uri
      · simp [applyChanges, additionWrites, List.filterMap_cons, h1, h2, ih,
          Deletion_ne_Addition]
      · simp [applyChanges, additionWrites, List.filterMap_cons, h1, h2, ih]

theorem applyChanges_deletes_mem (env : EditSessionsEnv) (version : Nat)
    (changes : List ChangeEntry) :
    ∀ (fs : FileSystem) (u : Uri),
      u ∈ (applyChanges env version fs changes).2.2 →
      ∃ c ∈ changes, c.type = ChangeType.Deletion ∧ c.uri = u := by
  induction changes with
  | nil => intro fs u h; simp [applyChanges] at h
  | cons c rest ih =>
    intro fs u h
    by_cases h1 : c.type = ChangeType.Addition
    · simp only [applyChanges, if_pos h1] at h
      obtain ⟨c', hc', hd⟩ := ih _ u h
      exact ⟨c', List.mem_cons_of_mem _ hc', hd⟩
    · by_cases h2 : c.type = ChangeType.Deletion ∧ fsExists fs c.uri
      · simp only [applyChanges, if_neg h1, if_pos h2] at h
        rcases List.mem_cons.mp h with rfl | hr
        · exact ⟨c, List.mem_cons_self c rest, h2.1, rfl⟩
        · obtain ⟨c', hc', hd⟩ := ih _ u hr
          exact ⟨c', List.mem_cons_of_mem _ hc', hd⟩
      · simp only [applyChanges, if_neg h1, if_neg h2] at h
        obtain ⟨c', hc', hd⟩ := ih _ u h
        exact ⟨c', List.mem_cons_of_mem _ hc', hd⟩

theorem deletionTargets_congr (changes : List ChangeEntry) (fs fs' : FileSystem)
    (h : ∀ c ∈ changes, fsExists fs' c.uri = fsExists fs c.uri) :
    deletionTargets fs' changes = deletionTargets fs changes := by
  unfold deletionTargets
  induction changes with
  | nil => rfl
  | cons c rest ih =>
    rw [List.filterMap_cons, List.filterMap_cons]
    rw [h c (List.mem_cons_self c rest)]
    rw [ih (fun c' hc' => h c' (List.mem_cons_of_mem _ hc'))]

theorem applyChanges_deletes_nodup (env : EditSessionsEnv) (version : Nat)
    (changes : List ChangeEntry) :
    ∀ fs : FileSystem,
      (changes.map ChangeEntry.uri).Nodup →
      (applyChanges env version fs changes).2.2 = deletionTargets fs changes := by
  induction changes with
  | nil => intro fs _; rfl
  | cons c rest ih =>
    intro fs hnd
    rw [List.map_cons, List.nodup_cons] at hnd
    obtain ⟨hnotin, hnd'⟩ := hnd
    have hcongrW : ∀ (x : String) (c' : ChangeEntry), c' ∈ rest →
        fsExists (fsWriteFile fs c.uri x) c'.uri = fsExists fs c'.uri := by
      intro x c' hc'
      rw [fsExists_fsWriteFile]
      have : ¬(c.uri = c'.uri) := fun hh =>
        hnotin (by rw [hh]; exact List.mem_map_of_mem _ hc')
      simp [this]
    have hcongrD : ∀ c' : ChangeEntry, c' ∈ rest →
        fsExists (fsDel fs c.uri) c'.uri = fsExists fs c'.uri := by
      intro c' hc'
      rw [fsExists_fsDel]
      have : ¬(c.uri = c'.uri) := fun hh =>
        hnotin (by rw [hh]; exact List.mem_map_of_mem _ hc')
      simp [this]
    by_cases h1 : c.type = ChangeType.Addition
    · have hd : ¬(c.type = ChangeType.Deletion ∧ fsExists fs c.uri) := by
        rw [h1]
        simp [ChangeType.Addition, ChangeType.Deletion]
      simp only [applyChanges, if_pos h1]
      rw [ih _ hnd']
      rw [deletionTargets_congr rest fs
        (fsWriteFile fs c.uri (env.decodeEditSessionFileContent version (c.contents.getD "")))
        (hcongrW _)]
      simp [deletionTargets, List.filterMap_cons, hd]
    · by_cases h2 : c.type = ChangeType.Deletion ∧ fsExists fs c.uri
      · simp only [applyChanges, if_neg h1, if_pos h2]
        rw [ih _ hnd']
        rw [deletionTargets_congr rest fs (fsDel fs c.uri) hcongrD]
        simp [deletionTargets, List.filterMap_cons, h2]
      · simp only [applyChanges, if_neg h1, if_neg h2]
        rw [ih _ hnd']
        simp [deletionTargets, List.filterMap_cons, h2]

/-- C2: when resumeEditSession reaches the application loop (non-empty
    workspace, cloud content present with a supported version, non-empty
    changes, conflicts confirmed when present), it writes the decoded session
    contents for every Addition, deletes a target only for a Deletion whose
    file currently exists (exactly those, for distinct target URIs), and
    afterwards deletes the edit session with that ref from cloud storage. -/
theorem resumeEditSession_C2 (env : EditSessionsEnv) (fs : FileSystem)
    (ref : Option String) (silent force : Bool) (ref' : String)
    (editSession : EditSession) (changes conflictingChanges : List ChangeEntry)
    (h1 : env.workbenchState ≠ WorkbenchState.EMPTY)
    (h2 : ¬(silent ∧ ¬env.initializeResult))
    (h3 : env.readCloud ref = some (ref', editSession))
    (h4 : editSession.version ≤ EditSessionSchemaVersion)
    (h5 : generateChanges env fs editSession force = .ok (changes, conflictingChanges))
    (h6 : changes ≠ [])
    (h7 : conflictingChanges ≠ [] → env.confirmResult = true) :
    (resumeEditSession env fs ref silent force).writes =
      additionWrites env editSession.version changes ∧
    (∀ u ∈ (resumeEditSession env fs ref silent force).deletes,
      ∃ c ∈ changes, c.type = ChangeType.Deletion ∧ c.uri = u) ∧
    ((changes.map ChangeEntry.uri).Nodup →
      (resumeEditSession env fs ref silent force).deletes = deletionTargets fs changes) ∧
    (resumeEditSession env fs ref silent force).cloudDeleted = some ref' := by
  have hconf : ¬(conflictingChanges ≠ [] ∧ ¬env.confirmResult) := by
    intro hc
    exact hc.2 (by simp [h7 hc.1])
  have hres : resumeEditSession env fs ref silent force =
      ⟨(applyChanges env editSession.version fs changes).1,
        (applyChanges env editSession.version fs changes).2.1,
        (applyChanges env editSession.version fs changes).2.2, some ref', false, true⟩ := by
    unfold resumeEditSession
    rw [if_neg h1, if_neg h2]
    simp only [h3]
    rw [if_neg (Nat.not_lt.mpr h4)]
    simp only [h5]
    rw [if_neg h6, if_neg hconf]
  refine ⟨?_, ?_, ?_, ?_⟩
  · rw [hres]
    exact applyChanges_writes env editSession.version changes fs
  · rw [hres]
    exact applyChanges_deletes_mem env editSession.version changes fs
  · rw [hres]
    exact applyChanges_deletes_nodup env editSession.version changes fs
  · rw [hres]

theorem resumeEditSession_C2_witness :
    (resumeEditSession envC2 fsC1 (some "ref1") false false).writes =
      additionWrites envC2 editSessionC2.version changesC2 ∧
    (∀ u ∈ (resumeEditSession envC2 fsC1 (some "ref1") false false).deletes,
      ∃ c ∈ changesC2, c.type = ChangeType.Deletion ∧ c.uri = u) ∧
    ((changesC2.map ChangeEntry.uri).Nodup →
      (resumeEditSession envC2 fsC1 (some "ref1") false false).deletes =
        deletionTargets fsC1 changesC2) ∧
    (resumeEditSession envC2 fsC1 (some "ref1") false false).cloudDeleted = some "ref1" :=
  resumeEditSession_C2 envC2 fsC1 (some "ref1") false false "ref1" editSessionC2
    changesC2 conflictsC2 (by decide) (by simp) rfl (by decide) rfl (by decide)
    (fun _ => rfl)

/-- C8: a session read from the cloud whose version is greater than
    EditSessionSchemaVersion makes resumeEditSession notify an error and
    return without writing or deleting any workspace file and without
    deleting the stored session from cloud storage. -/
theorem resumeEditSession_C8 (env : EditSessionsEnv) (fs : FileSystem)
    (ref : Option String) (silent force : Bool) (ref' : String)
    (editSession : EditSession)
    (h1 : env.workbenchState ≠ WorkbenchState.EMPTY)
    (h2 : ¬(silent ∧ ¬env.initializeResult))
    (h3 : env.readCloud ref = some (ref', editSession))
    (h4 : editSession.version > EditSessionSchemaVersion) :
    resumeEditSession env fs ref silent force = ⟨fs, [], [], none, true, true⟩ := by
  unfold resumeEditSession
  rw [if_neg h1, if_neg h2]
  simp only [h3]
  rw [if_pos h4]

theorem resumeEditSession_C8_witness :
    resumeEditSession envC8 fsC1 (some "ref8") false false = ⟨fsC1, [], [], none, true, true⟩ :=
  resumeEditSession_C8 envC8 fsC1 (some "ref8") false false "ref8" ⟨[], 3⟩
    (by decide) (by simp) rfl (by decide)

/-- C9: for every ref argument, resumeEditSession returns without reading
    cloud storage and without modifying any file when the workbench state is
    EMPTY. -/
theorem resumeEditSession_C9 (env : EditSessionsEnv) (fs : FileSystem)
    (ref : Option String) (silent force : Bool)
    (h : env.workbenchState = WorkbenchState.EMPTY) :
    resumeEditSession env fs ref silent force = ⟨fs, [], [], none, false, false⟩ := by
  unfold resumeEditSession
  rw [if_pos h]

theorem resumeEditSession_C9_witness :
    resumeEditSession envC9 fsC1 (some "anyref") true true = ⟨fsC1, [], [], none, false, false⟩ :=
  resumeEditSession_C9 envC9 fsC1 (some "anyref") true true rfl

/-- C5: handleNewRegisteredBackend with the backend matching the remote
    authority sets the connection state to Connecting and schedules the
    appropriate reconnection routine (remote when a remote authority exists
    and persistent sessions are enabled, local when only persistent sessions
    are enabled, immediate otherwise); once it completes, _setConnected makes
    the state Connected and fires onDidChangeConnectionState. -/
theorem handleNewRegisteredBackend_C5 (env : TerminalConnEnv) (st : TerminalConnState)
    (backend : TerminalBackend) (h : backend.remoteAuthority = env.remoteAuthority) :
    (handleNewRegisteredBackend env st backend).1.connectionState =
      TerminalConnectionState.Connecting ∧
    (handleNewRegisteredBackend env st backend).2 =
      some (if env.remoteAuthority.getD "" ≠ "" ∧ env.enablePersistentSessions then
          ReconnectKind.remote
        else if env.enablePersistentSessions then ReconnectKind.localTerminals
        else ReconnectKind.immediate) ∧
    (_setConnected (handleNewRegisteredBackend env st backend).1).connectionState =
      TerminalConnectionState.Connected ∧
    (_setConnected (handleNewRegisteredBackend env st backend).1).connectionStateEvents =
      (handleNewRegisteredBackend env st backend).1.connectionStateEvents + 1 := by
  have hb : handleNewRegisteredBackend env st backend =
      ({ st with primaryBackend := some backend,
                 connectionState := TerminalConnectionState.Connecting },
        some (if env.remoteAuthority.getD "" ≠ "" ∧ env.enablePersistentSessions then
            ReconnectKind.remote
          else if env.enablePersistentSessions then ReconnectKind.localTerminals
          else ReconnectKind.immediate)) := by
    simp only [handleNewRegisteredBackend, if_pos h]
    split_ifs <;> rfl
  rw [hb]
  exact ⟨rfl, rfl, rfl, rfl⟩

theorem handleNewRegisteredBackend_C5_witness :
    (handleNewRegisteredBackend envConnT stConnT ⟨some "auth"⟩).1.connectionState =
      TerminalConnectionState.Connecting ∧
    (handleNewRegisteredBackend envConnT stConnT ⟨some "auth"⟩).2 =
      some (if envConnT.remoteAuthority.getD "" ≠ "" ∧ envConnT.enablePersistentSessions then
          ReconnectKind.remote
        else if envConnT.enablePersistentSessions then ReconnectKind.localTerminals
        else ReconnectKind.immediate) ∧
    (_setConnected (handleNewRegisteredBackend envConnT stConnT ⟨some "auth"⟩).1).connectionState =
      TerminalConnectionState.Connected ∧
    (_setConnected (handleNewRegisteredBackend envConnT stConnT ⟨some "auth"⟩).1).connectionStateEvents =
      (handleNewRegisteredBackend envConnT stConnT ⟨some "auth"⟩).1.connectionStateEvents + 1 :=
  handleNewRegisteredBackend_C5 envConnT stConnT ⟨some "auth"⟩ rfl

theorem mapGet_addToOwner (m : ReconnectedMap) (owner o : String) (inst : TerminalInstance) :
    mapGet (addToOwner m owner inst) o =
      if owner = o then some ((mapGet m owner).getD [] ++ [inst]) else mapGet m o := by
  induction m with
  | nil =>
    simp only [addToOwner, mapGet]
    by_cases ho : owner = o
    · rw [if_pos ho, if_pos ho]
      rfl
    · rw [if_neg ho, if_neg ho]
  | cons p rest ih =>
    obtain ⟨k, l⟩ := p
    simp only [addToOwner]
    by_cases hk : k = owner
    · rw [if_pos hk]
      simp only [mapGet]
      by_cases ho : owner = o
      · rw [if_pos (hk.trans ho), if_pos ho, if_pos hk]
        rfl
      · have hko : ¬k = o := fun hh => ho (hk.symm.trans hh)
        rw [if_neg hko, if_neg ho, if_neg hko]
    · rw [if_neg hk]
      simp only [mapGet]
      rw [ih]
      by_cases ho : owner = o
      · have hko : ¬k = o := fun hh => hk (hh.trans ho.symm)
        rw [if_neg hko, if_pos ho, if_pos ho, if_neg hk]
      · by_cases hko : k = o
        · rw [if_pos hko, if_neg ho, if_pos hko]
        · rw [if_neg hko, if_neg ho, if_neg ho, if_neg hko]

theorem foldl_addToReconnected (insts : List TerminalInstance) (owner : String) :
    ∀ m : ReconnectedMap,
      mapGet (insts.foldl _addToReconnected m) owner =
        (match mapGet m owner with
          | none =>
            if (insts.filter (fun i =>
                decide (Option.map ReconnectionProperties.ownerId i.reconnectionProperties =
                  some owner))).isEmpty then none
            else some (insts.filter (fun i =>
              decide (Option.map ReconnectionProperties.ownerId i.reconnectionProperties =
                some owner)))
          | some l0 => some (l0 ++ insts.filter (fun i =>
              decide (Option.map ReconnectionProperties.ownerId i.reconnectionProperties =
                some owner)))) := by
  induction insts with
  | nil =>
    intro m
    cases hm : mapGet m owner <;> simp [hm]
  | cons i rest ih =>
    intro m
    rw [List.foldl_cons]
    cases hp : i.reconnectionProperties with
    | none =>
      have hstep : _addToReconnected m i = m := by simp [_addToReconnected, hp]
      have hfil : (decide (Option.map ReconnectionProperties.ownerId
          i.reconnectionProperties = some owner)) = false := by simp [hp]
      rw [hstep, ih m, List.filter_cons, hfil]
      simp
    | some props =>
      by_cases ho : props.ownerId = owner
      · have hstep : _addToReconnected m i = addToOwner m owner i := by
          simp [_addToReconnected, hp, ho]
        have hfil : (decide (Option.map ReconnectionProperties.ownerId
            i.reconnectionProperties = some owner)) = true := by simp [hp, ho]
        rw [hstep, ih (addToOwner m owner i), List.filter_cons, hfil]
        rw [mapGet_addToOwner, if_pos rfl]
        cases hm : mapGet m owner <;> simp [hm]
      · have hstep : _addToReconnected m i = addToOwner m props.ownerId i := by
          simp [_addToReconnected, hp]
        have hfil : (decide (Option.map ReconnectionProperties.ownerId
            i.reconnectionProperties = some owner)) = false := by simp [hp, ho]
        rw [hstep, ih (addToOwner m props.ownerId i), List.filter_cons, hfil]
        rw [mapGet_addToOwner, if_neg ho]
        simp

/-- C6: an instance created through _createTerminal or _splitTerminal is
    recorded through _addToReconnected under its reconnection owner, and
    getReconnectedTerminals returns exactly the instances recorded for an
    owner in creation order, or none when no instance was recorded. -/
theorem reconnected_C6 (env : TerminalCreateEnv) :
    (∀ (st : TerminalServiceState) (slc : ShellLaunchConfig) (location : TerminalLocation),
      ((_createTerminal env st slc location).2).reconnectedTerminals =
        _addToReconnected st.reconnectedTerminals (_createTerminal env st slc location).1)
    ∧ (∀ (st : TerminalServiceState) (slc : ShellLaunchConfig)
        (location : TerminalLocation) (parent inst : TerminalInstance)
        (st' : TerminalServiceState),
      _splitTerminal env st slc location parent = .ok (inst, st') →
      st'.reconnectedTerminals = _addToReconnected st.reconnectedTerminals inst)
    ∧ (∀ (insts : List TerminalInstance) (owner : String),
      getReconnectedTerminals ⟨[], [], [], insts.foldl _addToReconnected []⟩ owner =
        (if (insts.filter (fun i =>
            decide (Option.map ReconnectionProperties.ownerId i.reconnectionProperties =
              some owner))).isEmpty then none
          else some (insts.filter (fun i =>
            decide (Option.map ReconnectionProperties.ownerId i.reconnectionProperties =
              some owner))))) := by
  refine ⟨?_, ?_, ?_⟩
  · intro st slc location
    by_cases hl : location = TerminalLocation.Editor
    · simp [_createTerminal, hl, addReconnected]
    · simp [_createTerminal, hl, addReconnected]
  · intro st slc location parent inst st' h
    unfold _splitTerminal at h
    by_cases h1 : location = TerminalLocation.Editor ∨
        parent.target = some TerminalLocation.Editor
    · rw [if_pos h1] at h
      simp only [Except.ok.injEq, Prod.mk.injEq] at h
      obtain ⟨hi, hs⟩ := h
      subst hi
      subst hs
      rfl
    · rw [if_neg h1] at h
      by_cases h2 : env.parentHasGroup parent = true
      · rw [if_pos h2] at h
        simp only [Except.ok.injEq, Prod.mk.injEq] at h
        obtain ⟨hi, hs⟩ := h
        subst hi
        subst hs
        rfl
      · rw [if_neg h2] at h
        simp at h
  · intro insts owner
    have hf := foldl_addToReconnected insts owner []
    simpa [getReconnectedTerminals, mapGet] using hf

theorem reconnected_C6_witness :
    (⟨[⟨13, some ⟨"own"⟩, slcT, none⟩], [], [],
        [("own", [⟨13, some ⟨"own"⟩, slcT, none⟩])]⟩ :
      TerminalServiceState).reconnectedTerminals =
      _addToReconnected stT0.reconnectedTerminals ⟨13, some ⟨"own"⟩, slcT, none⟩ :=
  (reconnected_C6 envT).2.1 stT0 slcT TerminalLocation.Panel instT1
    ⟨13, some ⟨"own"⟩, slcT, none⟩
    ⟨[⟨13, some ⟨"own"⟩, slcT, none⟩], [], [], [("own", [⟨13, some ⟨"own"⟩, slcT, none⟩])]⟩
    rfl

theorem jsIndexOf_nonneg (l : List TerminalInstance) (inst : TerminalInstance)
    (h : inst ∈ l) : 0 ≤ jsIndexOf l inst := by
  induction l with
  | nil => cases h
  | cons a rest ih =>
    by_cases ha : a = inst
    · simp [jsIndexOf, ha]
    · have hmem : inst ∈ rest := by
        rcases List.mem_cons.mp h with h' | h'
        · exact absurd h'.symm ha
        · exact h'
      have hr := ih hmem
      have hne : jsIndexOf rest inst ≠ -1 := by omega
      simp only [jsIndexOf, if_neg ha]
      rw [if_neg hne]
      omega

theorem spliceIndexOf_mem (l : List TerminalInstance) (inst : TerminalInstance)
    (h : inst ∈ l) : spliceIndexOf l inst = l.erase inst := by
  induction l with
  | nil => cases h
  | cons a rest ih =>
    by_cases ha : a = inst
    · subst ha
      simp [spliceIndexOf, jsIndexOf, spliceAt]
    · have hmem : inst ∈ rest := by
        rcases List.mem_cons.mp h with h' | h'
        · exact absurd h'.symm ha
        · exact h'
      have hr := jsIndexOf_nonneg rest inst hmem
      have hne : jsIndexOf rest inst ≠ -1 := by omega
      have hidx : jsIndexOf (a :: rest) inst = jsIndexOf rest inst + 1 := by
        simp only [jsIndexOf, if_neg ha]
        rw [if_neg hne]
      have herase : (a :: rest).erase inst = a :: rest.erase inst := by
        rw [List.erase_cons_tail]
        simp [ha]
      rw [spliceIndexOf, hidx, herase, spliceAt]
      have hne1 : ¬(jsIndexOf rest inst + 1 = -1) := by omega
      rw [if_neg hne1]
      have htn : (jsIndexOf rest inst + 1).toNat = (jsIndexOf rest inst).toNat + 1 := by
        omega
      rw [htn, List.eraseIdx_cons_succ]
      have hih := ih hmem
      rw [spliceIndexOf, spliceAt, if_neg hne] at hih
      rw [hih]

theorem _resolveCwd_fields (env : TerminalCreateEnv) (slc : ShellLaunchConfig)
    (split : Bool) (options : Option CreateTerminalOptions) (slc' : ShellLaunchConfig)
    (h : _resolveCwd env slc split options = .ok slc') :
    slc'.customPtyImplementation = slc.customPtyImplementation ∧
    slc'.hideFromUser = slc.hideFromUser := by
  unfold _resolveCwd at h
  split_ifs at h with h1 h2 h3
  · cases h
    exact ⟨rfl, rfl⟩
  · simp only [Except.ok.injEq] at h
    subst h
    exact ⟨rfl, rfl⟩
  · split at h
    · simp only [Except.ok.injEq] at h
      subst h
      exact ⟨rfl, rfl⟩
    · cases hact : env.activeInstance with
      | none => simp [hact] at h
      | some p =>
        simp only [hact, Except.ok.injEq] at h
        subst h
        exact ⟨rfl, rfl⟩
  · cases h
    exact ⟨rfl, rfl⟩

theorem createTerminal_background (env : TerminalCreateEnv) (st : TerminalServiceState)
    (options : Option CreateTerminalOptions) (slc : ShellLaunchConfig)
    (h0 : _resolveCwd env (shellLaunchConfigOf env options)
      (splitActiveTerminalFlag (options.bind CreateTerminalOptions.location)) options =
        .ok slc)
    (h1 : contributedProfileOf env options (shellLaunchConfigOf env options) = none)
    (h2 : slc.hideFromUser = true)
    (h3 : slc.customPtyImplementation = true ∨ env.isProcessSupportRegistered = true) :
    createTerminal env st options =
      .ok (env.createInstance slc TerminalLocation.Panel,
        { st with backgroundedTerminalInstances :=
            st.backgroundedTerminalInstances ++
              [env.createInstance slc TerminalLocation.Panel] }) := by
  unfold createTerminal
  simp only [h0, h1]
  have hg : ¬(¬slc.customPtyImplementation = true ∧
      ¬env.isProcessSupportRegistered = true) := by
    rcases h3 with h3 | h3 <;> simp [h3]
  rw [if_neg hg, if_pos h2]

/-- C7: instances is always the group service's instances followed by the
    editor service's instances; a hideFromUser terminal is held in the
    backgrounded list and instances is unchanged by its creation; showing it
    removes it from the backgrounded list and adds it to a terminal group,
    after which it is among instances. -/
theorem instances_C7 (env : TerminalCreateEnv) :
    (∀ st : TerminalServiceState, instances st = st.groupInstances ++ st.editorInstances)
    ∧ (∀ (st : TerminalServiceState) (options : Option CreateTerminalOptions)
        (slc : ShellLaunchConfig),
      _resolveCwd env (shellLaunchConfigOf env options)
        (splitActiveTerminalFlag (options.bind CreateTerminalOptions.location)) options =
          .ok slc →
      contributedProfileOf env options (shellLaunchConfigOf env options) = none →
      slc.hideFromUser = true →
      (slc.customPtyImplementation = true ∨ env.isProcessSupportRegistered = true) →
      ∃ inst st', createTerminal env st options = .ok (inst, st') ∧
        instances st' = instances st ∧
        st'.backgroundedTerminalInstances = st.backgroundedTerminalInstances ++ [inst])
    ∧ (∀ (st : TerminalServiceState) (inst : TerminalInstance),
      inst ∈ st.backgroundedTerminalInstances →
      (_showBackgroundTerminal st inst).backgroundedTerminalInstances =
        st.backgroundedTerminalInstances.erase inst ∧
      (_showBackgroundTerminal st inst).groupInstances =
        st.groupInstances ++ [{ inst with
          shellLaunchConfig := { inst.shellLaunchConfig with hideFromUser := false } }] ∧
      { inst with shellLaunchConfig :=
          { inst.shellLaunchConfig with hideFromUser := false } } ∈
        instances (_showBackgroundTerminal st inst)) := by
  refine ⟨?_, ?_, ?_⟩
  · intro st
    rfl
  · intro st options slc h0 h1 h2 h3
    refine ⟨env.createInstance slc TerminalLocation.Panel,
      { st with backgroundedTerminalInstances :=
          st.backgroundedTerminalInstances ++
            [env.createInstance slc TerminalLocation.Panel] },
      createTerminal_background env st options slc h0 h1 h2 h3, rfl, rfl⟩
  · intro st inst hmem
    refine ⟨?_, rfl, ?_⟩
    · show spliceIndexOf st.backgroundedTerminalInstances inst = _
      exact spliceIndexOf_mem st.backgroundedTerminalInstances inst hmem
    · show _ ∈ (st.groupInstances ++ [_]) ++ st.editorInstances
      exact List.mem_append_left _ (List.mem_append_right _ (List.mem_singleton.mpr rfl))

theorem instances_C7_witness :
    ∃ inst st', createTerminal envT stT0 (some optsBG) = .ok (inst, st') ∧
      instances st' = instances stT0 ∧
      st'.backgroundedTerminalInstances = stT0.backgroundedTerminalInstances ++ [inst] :=
  (instances_C7 envT).2.1 stT0 (some optsBG) ⟨false, true, some "cwd"⟩ rfl rfl rfl
    (Or.inr rfl)

theorem createTerminal_contributed (env : TerminalCreateEnv) (st : TerminalServiceState)
    (options : Option CreateTerminalOptions) (slc : ShellLaunchConfig)
    (e i : String)
    (hok : _resolveCwd env (shellLaunchConfigOf env options)
      (splitActiveTerminalFlag (options.bind CreateTerminalOptions.location)) options =
        .ok slc)
    (hc : contributedProfileOf env options (shellLaunchConfigOf env options) = some (e, i)) :
    createTerminal env st options =
      (let resolvedLocation :=
        resolveLocation env (options.bind CreateTerminalOptions.location)
      let st' := if resolvedLocation = some TerminalLocation.Editor then
          { st with editorInstances := st.editorInstances ++ env.contributedInstances }
        else { st with groupInstances := st.groupInstances ++ env.contributedInstances }
      let host := if resolvedLocation = some TerminalLocation.Editor then
          st'.editorInstances
        else st'.groupInstances
      match host.getLast? with
      | none => .error "TypeError: instance is undefined"
      | some inst => .ok (inst, st')) := by
  unfold createTerminal
  simp only [hok, hc]

theorem createTerminal_standard (env : TerminalCreateEnv) (st : TerminalServiceState)
    (options : Option CreateTerminalOptions) (slc : ShellLaunchConfig)
    (hok : _resolveCwd env (shellLaunchConfigOf env options)
      (splitActiveTerminalFlag (options.bind CreateTerminalOptions.location)) options =
        .ok slc)
    (hc : contributedProfileOf env options (shellLaunchConfigOf env options) = none) :
    createTerminal env st options =
      (if ¬slc.customPtyImplementation ∧ ¬env.isProcessSupportRegistered then
        .error "Could not create terminal when process support is not registered"
      else if slc.hideFromUser then
        .ok (env.createInstance slc TerminalLocation.Panel,
          { st with backgroundedTerminalInstances :=
              st.backgroundedTerminalInstances ++
                [env.createInstance slc TerminalLocation.Panel] })
      else
        match _getSplitParent env (options.bind CreateTerminalOptions.location) with
        | some parent =>
          _splitTerminal env st slc
            ((resolveLocation env (options.bind CreateTerminalOptions.location)).getD
              env.defaultLocation) parent
        | none =>
          .ok (_createTerminal env st slc
            ((resolveLocation env (options.bind CreateTerminalOptions.location)).getD
              env.defaultLocation))) := by
  unfold createTerminal
  simp only [hok, hc]

/-- C10 counterexample: with a split-active-terminal location while no
    instance is active, createTerminal throws the split error although no
    contributed profile is used, the resolved shell launch config has no
    customPtyImplementation, and process support is not registered - so it
    neither throws the process-support error nor returns a terminal
    instance, refuting the claimed equivalence. -/
theorem createTerminal_C10_counterexample :
    contributedProfileOf envC10 (some optsC10) (shellLaunchConfigOf envC10 (some optsC10)) =
      none ∧
    (shellLaunchConfigOf envC10 (some optsC10)).customPtyImplementation = false ∧
    envC10.isProcessSupportRegistered = false ∧
    createTerminal envC10 stT0 (some optsC10) =
      .error "Cannot split without an active instance" ∧
    ("Cannot split without an active instance" ≠
      "Could not create terminal when process support is not registered") :=
  ⟨rfl, rfl, rfl, rfl, by decide⟩

/-- C10 amended: when cwd resolution succeeds, createTerminal throws the
    error 'Could not create terminal when process support is not registered'
    exactly when no contributed profile is used, the resolved shell launch
    config has no customPtyImplementation, and process support is not
    registered; and it returns a terminal instance when additionally the
    contributed launch produced an instance (for the contributed path) and
    any split parent targets the editor or has a group. -/
theorem createTerminal_C10_amended (env : TerminalCreateEnv) (st : TerminalServiceState)
    (options : Option CreateTerminalOptions) (slc : ShellLaunchConfig)
    (hok : _resolveCwd env (shellLaunchConfigOf env options)
      (splitActiveTerminalFlag (options.bind CreateTerminalOptions.location)) options =
        .ok slc) :
    (createTerminal env st options =
        .error "Could not create terminal when process support is not registered" ↔
      contributedProfileOf env options (shellLaunchConfigOf env options) = none ∧
        slc.customPtyImplementation = false ∧ env.isProcessSupportRegistered = false)
    ∧ (∀ e i,
      contributedProfileOf env options (shellLaunchConfigOf env options) = some (e, i) →
      env.contributedInstances ≠ [] →
      ∃ r, createTerminal env st options = .ok r)
    ∧ (contributedProfileOf env options (shellLaunchConfigOf env options) = none →
      (slc.customPtyImplementation = true ∨ env.isProcessSupportRegistered = true) →
      (∀ parent, _getSplitParent env (options.bind CreateTerminalOptions.location) =
          some parent →
        ((resolveLocation env (options.bind CreateTerminalOptions.location)).getD
            env.defaultLocation = TerminalLocation.Editor ∨
          parent.target = some TerminalLocation.Editor ∨
          env.parentHasGroup parent = true)) →
      ∃ r, createTerminal env st options = .ok r) := by
  refine ⟨?_, ?_, ?_⟩
  · constructor
    · intro h
      cases hc : contributedProfileOf env options (shellLaunchConfigOf env options) with
      | some p =>
        obtain ⟨e, i⟩ := p
        rw [createTerminal_contributed env st options slc e i hok hc] at h
        by_cases hloc : resolveLocation env (options.bind CreateTerminalOptions.location) =
            some TerminalLocation.Editor
        · simp only [hloc, if_pos] at h
          cases hl : (st.editorInstances ++ env.contributedInstances).getLast? with
          | none =>
            simp only [hl, Except.error.injEq] at h
            exact absurd h (by decide)
          | some inst => simp [hl] at h
        · simp only [if_neg hloc] at h
          cases hl : (st.groupInstances ++ env.contributedInstances).getLast? with
          | none =>
            simp only [hl, Except.error.injEq] at h
            exact absurd h (by decide)
          | some inst => simp [hl] at h
      | none =>
        rw [createTerminal_standard env st options slc hok hc] at h
        by_cases hg : ¬slc.customPtyImplementation = true ∧
            ¬env.isProcessSupportRegistered = true
        · exact ⟨rfl, by simpa using hg.1, by simpa using hg.2⟩
        · rw [if_neg hg] at h
          by_cases hh : slc.hideFromUser = true
          · rw [if_pos hh] at h
            simp at h
          · rw [if_neg hh] at h
            cases hp : _getSplitParent env (options.bind CreateTerminalOptions.location) with
            | none => simp [hp] at h
            | some parent =>
              simp only [hp] at h
              unfold _splitTerminal at h
              split_ifs at h with hs1 hs2
              all_goals simp at h
    · rintro ⟨hc, hp1, hp2⟩
      rw [createTerminal_standard env st options slc hok hc]
      rw [if_pos ⟨by simp [hp1], by simp [hp2]⟩]
  · intro e i hc hne
    rw [createTerminal_contributed env st options slc e i hok hc]
    by_cases hloc : resolveLocation env (options.bind CreateTerminalOptions.location) =
        some TerminalLocation.Editor
    · simp only [hloc, if_pos]
      have hne2 : (st.editorInstances ++ env.contributedInstances).getLast? ≠ none := by
        simp [List.getLast?_eq_none_iff, hne]
      obtain ⟨inst, hinst⟩ := Option.ne_none_iff_exists'.mp hne2
      rw [hinst]
      exact ⟨_, rfl⟩
    · simp only [if_neg hloc]
      have hne2 : (st.groupInstances ++ env.contributedInstances).getLast? ≠ none := by
        simp [List.getLast?_eq_none_iff, hne]
      obtain ⟨inst, hinst⟩ := Option.ne_none_iff_exists'.mp hne2
      rw [hinst]
      exact ⟨_, rfl⟩
  · intro hc hg hsplit
    rw [createTerminal_standard env st options slc hok hc]
    have hgneg : ¬(¬slc.customPtyImplementation = true ∧
        ¬env.isProcessSupportRegistered = true) := by
      rcases hg with hg | hg <;> simp [hg]
    rw [if_neg hgneg]
    by_cases hh : slc.hideFromUser = true
    · rw [if_pos hh]
      exact ⟨_, rfl⟩
    · rw [if_neg hh]
      cases hp : _getSplitParent env (options.bind CreateTerminalOptions.location) with
      | none =>
        simp only [hp]
        exact ⟨_, rfl⟩
      | some parent =>
        simp only [hp]
        unfold _splitTerminal
        rcases hsplit parent hp with he | he | he
        · rw [if_pos (Or.inl he)]
          exact ⟨_, rfl⟩
        · rw [if_pos (Or.inr he)]
          exact ⟨_, rfl⟩
        · by_cases hE : (resolveLocation env
              (options.bind CreateTerminalOptions.location)).getD env.defaultLocation =
                TerminalLocation.Editor ∨
              parent.target = some TerminalLocation.Editor
          · rw [if_pos hE]
            exact ⟨_, rfl⟩
          · rw [if_neg hE, if_pos he]
            exact ⟨_, rfl⟩

theorem createTerminal_C10_witness :
    ∃ r, createTerminal envT stT0 none = .ok r :=
  (createTerminal_C10_amended envT stT0 none slcT rfl).2.2 rfl (Or.inr rfl)
    (fun parent hp => by simp [_getSplitParent] at hp)
